import Mathlib

/-!
Shallow embedding of `src/metacritic_scraper.py` (Metacritic game-info scraper).

Strings are modelled as `List Char`; Python's ASCII-range text operations
(`str.lower`, `str.strip`, the `re` character classes `\w` and `\s`) are
modelled on that range, which covers every title and document text the
claims are about.
-/

/-- Python regex class `\s` (ASCII range): space, tab, newline, carriage
return, vertical tab, form feed. -/
def pyIsSpace (c : Char) : Bool :=
  c = ' ' || c = '\t' || c = '\n' || c = '\r' || c = '\x0b' || c = '\x0c'

/-- Python regex class `\w` (ASCII range): letters, digits and underscore. -/
def isWordChar (c : Char) : Bool :=
  c.isAlpha || c.isDigit || c = '_'

/-- The character class kept by step 1 of `create_metacritic_url`,
`re.sub(r'[^\w\s+-]', '', title)`: word characters, whitespace, `+`, `-`. -/
def keepChar (c : Char) : Bool :=
  isWordChar c || pyIsSpace c || c = '+' || c = '-'

/-- Step 1 of `create_metacritic_url`: remove every character outside the
class `[\w\s+-]`. -/
def filterStep1 (l : List Char) : List Char :=
  l.filter keepChar

/-- Python `str.lower` on the ASCII range: map each uppercase letter to its
lowercase counterpart, leave every other character unchanged. -/
def pyToLower (c : Char) : Char :=
  match c with
  | 'A' => 'a' | 'B' => 'b' | 'C' => 'c' | 'D' => 'd' | 'E' => 'e'
  | 'F' => 'f' | 'G' => 'g' | 'H' => 'h' | 'I' => 'i' | 'J' => 'j'
  | 'K' => 'k' | 'L' => 'l' | 'M' => 'm' | 'N' => 'n' | 'O' => 'o'
  | 'P' => 'p' | 'Q' => 'q' | 'R' => 'r' | 'S' => 's' | 'T' => 't'
  | 'U' => 'u' | 'V' => 'v' | 'W' => 'w' | 'X' => 'x' | 'Y' => 'y'
  | 'Z' => 'z'
  | other => other

/-- Python `str.strip()`: drop whitespace from both ends. -/
def pyStrip (l : List Char) : List Char :=
  ((l.dropWhile pyIsSpace).reverse.dropWhile pyIsSpace).reverse

/-- Step 2 of `create_metacritic_url`, `re.sub(r'\s-\s', ' ', s)`: scanning
left to right, each non-overlapping whitespace-hyphen-whitespace triple is
replaced by a single space. -/
def subSDS : List Char → List Char
  | [] => []
  | [a] => [a]
  | [a, b] => [a, b]
  | a :: b :: c :: rest =>
    if pyIsSpace a && b = '-' && pyIsSpace c then ' ' :: subSDS rest
    else a :: subSDS (b :: c :: rest)

/-- Step 3 of `create_metacritic_url`, `re.sub(r'\+', 'plus', s)`: replace
every `+` by the letters `plus`. -/
def subPlus : List Char → List Char
  | [] => []
  | c :: rest =>
    if c = '+' then 'p' :: 'l' :: 'u' :: 's' :: subPlus rest
    else c :: subPlus rest

/-- Worker for step 4: `inRun` records whether the previous character was
part of a whitespace run already replaced by a hyphen. -/
def collapseWSAux : Bool → List Char → List Char
  | _, [] => []
  | inRun, c :: rest =>
    if pyIsSpace c then
      if inRun then collapseWSAux true rest
      else '-' :: collapseWSAux true rest
    else c :: collapseWSAux false rest

/-- Step 4 of `create_metacritic_url`, `re.sub(r'\s+', '-', s)`: replace
every run of one or more whitespace characters by a single hyphen. -/
def collapseWS (l : List Char) : List Char :=
  collapseWSAux false l

/-- The reversal of the literal `-edition` tail of the step-5 pattern. -/
def editionRev : List Char :=
  ['n', 'o', 'i', 't', 'i', 'd', 'e', '-']

/-- Whether `re.sub(r'-\w+-edition$', '', s, flags=re.IGNORECASE)` finds a
match: the string ends in `-edition` (case-insensitively), preceded by a
nonempty run of word characters, preceded by a hyphen. -/
def hasEditionSuffix (s : List Char) : Bool :=
  ((s.reverse.take 8).map pyToLower == editionRev)
    && !((s.reverse.drop 8).takeWhile isWordChar).isEmpty
    && (((s.reverse.drop 8).dropWhile isWordChar).head? == some '-')

/-- Step 5 of `create_metacritic_url`: remove a trailing
`-<word>-edition` (the word `edition` and the hyphen-joined word before it). -/
def stripEdition (s : List Char) : List Char :=
  if hasEditionSuffix s then
    (((s.reverse.drop 8).dropWhile isWordChar).drop 1).reverse
  else s

/-- The key segment of `create_metacritic_url`: the five-step normalisation
pipeline applied to the title (the part of the URL between the base path and
the trailing slash). -/
def normalizeKey (title : List Char) : List Char :=
  stripEdition (collapseWS (subPlus (subSDS ((pyStrip (filterStep1 title)).map pyToLower))))

/-- The fixed base path of `create_metacritic_url`. -/
def BASE_URL : List Char :=
  "https://www.metacritic.com/game/".toList

/-- Function `create_metacritic_url`: base path, normalised key segment, trailing slash. -/
def create_metacritic_url (title : List Char) : List Char :=
  BASE_URL ++ normalizeKey title ++ ['/']

/-- Decidable equality of `Except` results, for evaluating the embedded
fallible functions on concrete inputs. -/
instance exceptDecEq {ε α : Type} [DecidableEq ε] [DecidableEq α] :
    DecidableEq (Except ε α) := fun
  | .error e, .error f =>
    if h : e = f then .isTrue (by rw [h])
    else .isFalse (by intro hh; cases hh; exact h rfl)
  | .error _, .ok _ => .isFalse (by intro h; cases h)
  | .ok _, .error _ => .isFalse (by intro h; cases h)
  | .ok a, .ok b =>
    if h : a = b then .isTrue (by rw [h])
    else .isFalse (by intro hh; cases hh; exact h rfl)

/-! ## Document fetcher (`get_soup`)

`get_soup` wraps `requests.get`, `Response.raise_for_status`, `Response.text`
and `BeautifulSoup(..., 'lxml')` in a `try` that catches
`requests.RequestException` and returns `None`.  The network is modelled by a
`FetchOutcome`: either the transport raises (`requests.get` failure), or a
response arrives with a status code and a body.  Reading a malformed body
(bad content encoding, truncated chunked transfer) raises a
`RequestException` from `Response.text`; a readable body yields the parsed
document (the `lxml` parser recovers from arbitrary markup, so parsing
itself is total).  A parsed document is abstracted to the outcome of the
seven `find`-chain lookups `parse_game_info` performs on it: each is either
the text found or absent (`None` somewhere in the chain, which in Python
surfaces as an `AttributeError`). -/

/-- A parsed Metacritic game page, abstracted to the text each of the seven
`find`-chains of `parse_game_info` would return (`none` = some lookup in the
chain returned `None`, so `.text`/`.find` on it raises `AttributeError`). -/
structure Doc where
  metaScoreText : Option (List Char)
  metaReviewsText : Option (List Char)
  userScoreText : Option (List Char)
  userReviewsText : Option (List Char)
  releaseDateText : Option (List Char)
  publisherText : Option (List Char)
  genreText : Option (List Char)
deriving DecidableEq

/-- Reading the response body: `Response.text` either raises a
`requests.RequestException` (malformed/undecodable body) or yields a body
that `BeautifulSoup` parses into a document. -/
inductive BodyRead where
  | malformed
  | html (doc : Doc)
deriving DecidableEq

/-- Outcome of `requests.get`: the transport raises a `RequestException`, or
a response arrives with an HTTP status code and a body. -/
inductive FetchOutcome where
  | transportError
  | response (status : Nat) (body : BodyRead)
deriving DecidableEq

/-- Whether the fetch outcome is one of the failures `get_soup` recovers
from: a transport error, an error status (`raise_for_status` raises for
4xx/5xx), or a malformed body. -/
def fetchFails : FetchOutcome → Bool
  | .transportError => true
  | .response status body =>
    (400 ≤ status && status < 600)
      || (match body with | .malformed => true | .html _ => false)

/-- Function `get_soup`: request the URL, raise for an error status, parse the body;
every `requests.RequestException` on that path is caught and turned into
`None`.  Totality of this function is the never-raises part of the contract. -/
def get_soup (o : FetchOutcome) : Option Doc :=
  match o with
  | .transportError => none
  | .response status body =>
    if 400 ≤ status && status < 600 then none
    else
      match body with
      | .malformed => none
      | .html d => some d

/-! ## Field extractor (`parse_game_info`) -/

/-- Errors the embedded code can raise: `ValueError` (from
`datetime.strptime`) and `ZeroDivisionError` (from the success-rate
division). -/
inductive PyError where
  | valueError
  | zeroDivisionError
deriving DecidableEq

/-- The score-field rule of `parse_game_info`: absent region gives `None`
(`AttributeError` caught); text case-insensitively equal to `tbd` gives
`None`; any other text is kept verbatim. -/
def tbdToNull (t : Option (List Char)) : Option (List Char) :=
  match t with
  | none => none
  | some s => if s.map pyToLower = "tbd".toList then none else some s

/-- Up to `n` leading decimal digits, greedily, with the rest of the input:
the `\d{1,3}` part of the review-count regex. -/
def takeDigits : Nat → List Char → List Char × List Char
  | 0, l => ([], l)
  | _ + 1, [] => ([], [])
  | n + 1, c :: rest =>
    if c.isDigit then
      let (d, r) := takeDigits n rest
      (c :: d, r)
    else ([], c :: rest)

/-- The `(?:,\d{3})*` part of the review-count regex: the maximal run of
comma-plus-three-digit groups at the head of the input. -/
def commaGroups : List Char → List Char
  | ',' :: a :: b :: c :: rest =>
    if a.isDigit && b.isDigit && c.isDigit then
      ',' :: a :: b :: c :: commaGroups rest
    else []
  | _ => []

/-- A match of `\d{1,3}(?:,\d{3})*` anchored at the head of the input. -/
def matchNumAt (l : List Char) : Option (List Char) :=
  let (d, r) := takeDigits 3 l
  if d.isEmpty then none else some (d ++ commaGroups r)

/-- Search as in `re.search` for the count pattern: the leftmost match. -/
def searchNum : List Char → Option (List Char)
  | [] => none
  | c :: rest =>
    match matchNumAt (c :: rest) with
    | some m => some m
    | none => searchNum rest

/-- The review-count rule of `parse_game_info`: absent label gives `None`;
otherwise search the text for a comma-grouped digit run — no match means
`re.search` returned `None` and `.group()` raised `AttributeError`, caught
to `None`; a match has its grouping commas removed. -/
def reviewsField (t : Option (List Char)) : Option (List Char) :=
  match t with
  | none => none
  | some s =>
    match searchNum s with
    | none => none
    | some m => some (m.filter (fun c => !(c = ',')))

/-! ### `datetime.strptime(s, '%b %d, %Y')` and `strftime('%d-%m-%Y')`

Modelled for the ASCII inputs the scraper meets: `%b` matches a
case-insensitive English month abbreviation, the format's literal blank
matches a nonempty whitespace run, `%d` matches a one- or two-digit day
(1–31, leading zero allowed), `%Y` matches exactly four digits, and the
whole input must be consumed.  Calendar validation beyond the 1–31 day
bound is not modelled (no claim depends on it). -/

/-- The twelve English month abbreviations recognised by `%b`. -/
def monthAbbrevs : List (List Char) :=
  ["Jan".toList, "Feb".toList, "Mar".toList, "Apr".toList,
   "May".toList, "Jun".toList, "Jul".toList, "Aug".toList,
   "Sep".toList, "Oct".toList, "Nov".toList, "Dec".toList]

/-- Try each month abbreviation in turn as a case-insensitive prefix of the
input; return the month number and the rest of the input. -/
def matchMonthFrom : Nat → List (List Char) → List Char → Option (Nat × List Char)
  | _, [], _ => none
  | i, a :: rest, s =>
    if (s.take a.length).map pyToLower = a.map pyToLower then some (i, s.drop a.length)
    else matchMonthFrom (i + 1) rest s

/-- A format-string blank: at least one whitespace character, then any more. -/
def skipWS1 (s : List Char) : Option (List Char) :=
  match s with
  | c :: rest => if pyIsSpace c then some (rest.dropWhile pyIsSpace) else none
  | [] => none

/-- Numeric value of a decimal digit character. -/
def digitVal (c : Char) : Nat := c.toNat - 48

/-- Day directive: a one- or two-digit day in 1–31 (leading zero allowed). -/
def parseDay (s : List Char) : Option (Nat × List Char) :=
  match s with
  | a :: b :: rest =>
    if a.isDigit && b.isDigit then
      let d := digitVal a * 10 + digitVal b
      if 1 ≤ d && d ≤ 31 then some (d, rest) else none
    else if a.isDigit && 1 ≤ digitVal a then some (digitVal a, b :: rest)
    else none
  | [a] => if a.isDigit && 1 ≤ digitVal a then some (digitVal a, []) else none
  | [] => none

/-- Year directive: exactly four decimal digits. -/
def parseYear4 (s : List Char) : Option (Nat × List Char) :=
  match s with
  | a :: b :: c :: d :: rest =>
    if a.isDigit && b.isDigit && c.isDigit && d.isDigit then
      some (digitVal a * 1000 + digitVal b * 100 + digitVal c * 10 + digitVal d, rest)
    else none
  | _ => none

/-- Model of `datetime.strptime` with format `%b %d, %Y`: day, month and year on success,
`none` where Python raises `ValueError`. -/
def strptimeBMDY (s : List Char) : Option (Nat × Nat × Nat) :=
  match matchMonthFrom 1 monthAbbrevs s with
  | none => none
  | some (m, s1) =>
    match skipWS1 s1 with
    | none => none
    | some s2 =>
      match parseDay s2 with
      | none => none
      | some (d, s3) =>
        match s3 with
        | ',' :: s4 =>
          match skipWS1 s4 with
          | none => none
          | some s5 =>
            match parseYear4 s5 with
            | some (y, []) => some (d, m, y)
            | _ => none
        | _ => none

/-- Two-digit zero-padded decimal rendering (`%d`/`%m` of `strftime`). -/
def twoDigits (n : Nat) : List Char :=
  [Char.ofNat (48 + n / 10 % 10), Char.ofNat (48 + n % 10)]

/-- Four-digit zero-padded decimal rendering (`%Y` of `strftime`). -/
def fourDigits (n : Nat) : List Char :=
  [Char.ofNat (48 + n / 1000 % 10), Char.ofNat (48 + n / 100 % 10),
   Char.ofNat (48 + n / 10 % 10), Char.ofNat (48 + n % 10)]

/-- Model of `strftime` with format `%d-%m-%Y` applied to a parsed (day, month, year). -/
def strftimeDMY (dmy : Nat × Nat × Nat) : List Char :=
  twoDigits dmy.1 ++ ['-'] ++ twoDigits dmy.2.1 ++ ['-'] ++ fourDigits dmy.2.2

/-- The release-date field of `parse_game_info`.  An absent element is an
`AttributeError`, caught to `None`; present text that `strptime` rejects
raises `ValueError`, which the `except AttributeError` clause does NOT
catch, so it propagates out of `parse_game_info`. -/
def releaseDateField (t : Option (List Char)) : Except PyError (Option (List Char)) :=
  match t with
  | none => .ok none
  | some s =>
    match strptimeBMDY s with
    | none => .error .valueError
    | some dmy => .ok (some (strftimeDMY dmy))

/-- The record `parse_game_info` returns: seven independently nullable
fields. -/
structure GameInfo where
  meta_score : Option (List Char)
  meta_reviews : Option (List Char)
  user_score : Option (List Char)
  user_reviews : Option (List Char)
  release_date : Option (List Char)
  publisher : Option (List Char)
  genre : Option (List Char)
deriving DecidableEq

/-- Function `parse_game_info`: build the seven fields from the document's lookup
results.  Every field is wrapped in its own `try/except AttributeError`,
but the `ValueError` a present-yet-unparseable release date raises escapes
the whole function. -/
def parse_game_info (g : Doc) : Except PyError GameInfo :=
  match releaseDateField g.releaseDateText with
  | .error e => .error e
  | .ok rd =>
    .ok {
      meta_score := tbdToNull g.metaScoreText
      meta_reviews := reviewsField g.metaReviewsText
      user_score := tbdToNull g.userScoreText
      user_reviews := reviewsField g.userReviewsText
      release_date := rd
      publisher := g.publisherText
      genre := g.genreText.map pyStrip
    }

/-! ## Orchestrator (`scrape_game_info`) -/

/-- One record of the input catalogue: a JSON object with at least a
`title`, plus whatever other key–value pairs the storefront scraper wrote. -/
structure CatRecord where
  title : List Char
  extra : List (List Char × List Char)
deriving DecidableEq

/-- The value of one enrichment column after the run: the uniform `'N/A'`
marker (fetch failed), Python `None` (fetch succeeded, field absent), or an
extracted string. -/
inductive FieldVal where
  | na
  | null
  | str (s : List Char)
deriving DecidableEq

/-- Coerce an extractor result into a column value. -/
def FieldVal.ofOpt : Option (List Char) → FieldVal
  | none => .null
  | some s => .str s

/-- A catalogue record after `game.update`: the original record plus the
seven enrichment columns. -/
structure EnrichedRecord where
  base : CatRecord
  meta_score : FieldVal
  meta_reviews : FieldVal
  user_score : FieldVal
  user_reviews : FieldVal
  release_date : FieldVal
  publisher : FieldVal
  genre : FieldVal
deriving DecidableEq

/-- The `game.update` of the fetch-failed branch: all seven columns `'N/A'`. -/
def naRecord (g : CatRecord) : EnrichedRecord :=
  ⟨g, .na, .na, .na, .na, .na, .na, .na⟩

/-- The `game.update` of the fetch-succeeded branch: all seven columns from
the extractor, value-or-null. -/
def infoRecord (g : CatRecord) (gi : GameInfo) : EnrichedRecord :=
  ⟨g, .ofOpt gi.meta_score, .ofOpt gi.meta_reviews, .ofOpt gi.user_score,
   .ofOpt gi.user_reviews, .ofOpt gi.release_date, .ofOpt gi.publisher,
   .ofOpt gi.genre⟩

/-- One iteration of the orchestrator's loop: build the URL from the title,
fetch, then either parse (which may raise) and merge the extracted fields,
or merge the uniform `'N/A'` marker.  The boolean reports whether the
success counter was incremented. -/
def enrichOne (fetch : List Char → FetchOutcome) (g : CatRecord) :
    Except PyError (EnrichedRecord × Bool) :=
  match get_soup (fetch (create_metacritic_url g.title)) with
  | some doc =>
    match parse_game_info doc with
    | .error e => .error e
    | .ok gi => .ok (infoRecord g gi, true)
  | none => .ok (naRecord g, false)

/-- The orchestrator's loop over the catalogue, in input order, accumulating
the enriched records and the success count
(`total_game_info_scraped`).  An exception from any iteration aborts the
whole run. -/
def enrichAll (fetch : List Char → FetchOutcome) :
    List CatRecord → Except PyError (List EnrichedRecord × Nat)
  | [] => .ok ([], 0)
  | g :: rest =>
    match enrichOne fetch g with
    | .error e => .error e
    | .ok (r, hit) =>
      match enrichAll fetch rest with
      | .error e => .error e
      | .ok (rs, n) => .ok (r :: rs, (if hit then 1 else 0) + n)

/-- Function `scrape_game_info` on an already-loaded catalogue: run the loop, then
compute `scrape_success_rate = total_game_info_scraped / len(catalogue)` —
a plain division with no guard, so an empty catalogue raises
`ZeroDivisionError`.  Python's float quotient is modelled exactly as a
rational.  The result carries the enriched records (what the CSV is written
from), the success count and the success rate. -/
def scrape_game_info (fetch : List Char → FetchOutcome) (catalogue : List CatRecord) :
    Except PyError (List EnrichedRecord × Nat × ℚ) :=
  match enrichAll fetch catalogue with
  | .error e => .error e
  | .ok (recs, n) =>
    if catalogue.length = 0 then .error .zeroDivisionError
    else .ok (recs, n, (n : ℚ) / (catalogue.length : ℚ))

/-! ## Auxiliary predicates and concrete documents used by the claims -/

/-- The four letters substituted for `+` by step 3. -/
def plusChars : List Char := ['p', 'l', 'u', 's']

/-- The lowercase ASCII letters (the image of `pyToLower` on uppercase). -/
def lcLetters : List Char := "abcdefghijklmnopqrstuvwxyz".toList

/-- All seven enrichment columns carry the uniform `'N/A'` marker. -/
def allNA (r : EnrichedRecord) : Prop :=
  r.meta_score = .na ∧ r.meta_reviews = .na ∧ r.user_score = .na ∧
  r.user_reviews = .na ∧ r.release_date = .na ∧ r.publisher = .na ∧ r.genre = .na

/-- A column value that is an extracted value or a null — not the marker. -/
def FieldVal.isValueOrNull : FieldVal → Prop
  | .na => False
  | .null => True
  | .str _ => True

/-- All seven enrichment columns are present as extracted value-or-null. -/
def allPresent (r : EnrichedRecord) : Prop :=
  r.meta_score.isValueOrNull ∧ r.meta_reviews.isValueOrNull ∧
  r.user_score.isValueOrNull ∧ r.user_reviews.isValueOrNull ∧
  r.release_date.isValueOrNull ∧ r.publisher.isValueOrNull ∧
  r.genre.isValueOrNull

/-- A document whose release-date element is present but whose text does not
parse in the `%b %d, %Y` format. -/
def docTBADate : Doc := ⟨none, none, none, none, some "TBA".toList, none, none⟩

/-- A document whose release-date element reads `Jan 05, 2024`. -/
def docJanDate : Doc := ⟨none, none, none, none, some "Jan 05, 2024".toList, none, none⟩

/-- A document with a numeric meta-score region and a `tbd` user-score
region. -/
def docScores : Doc := ⟨some "85".toList, none, some "tbd".toList, none, none, none, none⟩

/-- A document on which all seven lookups fail. -/
def docAbsent : Doc := ⟨none, none, none, none, none, none, none⟩

/-! ## Lemmas about the normaliser pipeline -/

/-- Lowercasing either fixes a character or yields a lowercase letter. -/
theorem pyToLower_cases (c : Char) : pyToLower c = c ∨ pyToLower c ∈ lcLetters := by
  unfold pyToLower
  split
  all_goals first
    | exact Or.inl rfl
    | exact Or.inr (by decide)

/-- Lowercasing is idempotent. -/
theorem pyToLower_fixed (c : Char) : pyToLower (pyToLower c) = pyToLower c := by
  rcases pyToLower_cases c with h | h
  · rw [h, h]
  · have hl : ∀ d ∈ lcLetters, pyToLower d = d := by decide
    exact hl _ h

/-- Lowercasing preserves membership in the kept character class. -/
theorem keepChar_pyToLower (c : Char) (h : keepChar c = true) :
    keepChar (pyToLower c) = true := by
  rcases pyToLower_cases c with hc | hc
  · rwa [hc]
  · have hl : ∀ d ∈ lcLetters, keepChar d = true := by decide
    exact hl _ hc

/-- Characters of the step-2 output come from its input or are the
substituted space. -/
theorem mem_subSDS (l : List Char) (c : Char) (h : c ∈ subSDS l) : c ∈ l ∨ c = ' ' := by
  induction l using subSDS.induct with
  | case1 => simp [subSDS] at h
  | case2 a => simp [subSDS] at h; simp [h]
  | case3 a b => simp [subSDS] at h; rcases h with h | h <;> simp [h]
  | case4 a b d rest hcond ih =>
    rw [subSDS, if_pos hcond] at h
    rcases List.mem_cons.mp h with h | h
    · right; exact h
    · rcases ih h with h | h
      · left; simp [h]
      · right; exact h
  | case5 a b d rest hcond ih =>
    rw [subSDS, if_neg hcond] at h
    rcases List.mem_cons.mp h with h | h
    · left; simp [h]
    · rcases ih h with h | h
      · left; simp [List.mem_cons] at h ⊢; tauto
      · right; exact h

/-- Step 2 fixes any string without whitespace. -/
theorem subSDS_id (l : List Char) (hl : ∀ c ∈ l, pyIsSpace c = false) :
    subSDS l = l := by
  induction l using subSDS.induct with
  | case1 => rfl
  | case2 a => rfl
  | case3 a b => rfl
  | case4 a b d rest hcond ih =>
    exfalso
    have ha : pyIsSpace a = false := hl a (by simp)
    simp [ha] at hcond
  | case5 a b d rest hcond ih =>
    rw [subSDS, if_neg hcond]
    have := ih (fun x hx => hl x (List.mem_cons.mpr (Or.inr hx)))
    rw [this]

/-- Characters of the step-3 output: non-plus characters of the input, or
letters of the substituted word `plus`. -/
theorem mem_subPlus (l : List Char) (c : Char) (h : c ∈ subPlus l) :
    (c ∈ l ∧ ¬ c = '+') ∨ c ∈ plusChars := by
  induction l with
  | nil => simp [subPlus] at h
  | cons a rest ih =>
    rw [subPlus] at h
    by_cases ha : a = '+'
    · rw [if_pos ha] at h
      simp only [List.mem_cons] at h
      rcases h with h | h | h | h | h
      · exact Or.inr (by simp [plusChars, h])
      · exact Or.inr (by simp [plusChars, h])
      · exact Or.inr (by simp [plusChars, h])
      · exact Or.inr (by simp [plusChars, h])
      · rcases ih h with ⟨h1, h2⟩ | h1
        · exact Or.inl ⟨List.mem_cons.mpr (Or.inr h1), h2⟩
        · exact Or.inr h1
    · rw [if_neg ha] at h
      rcases List.mem_cons.mp h with h | h
      · subst h; exact Or.inl ⟨List.mem_cons.mpr (Or.inl rfl), ha⟩
      · rcases ih h with ⟨h1, h2⟩ | h1
        · exact Or.inl ⟨List.mem_cons.mpr (Or.inr h1), h2⟩
        · exact Or.inr h1

/-- Step 3 fixes any string without a plus sign. -/
theorem subPlus_id (l : List Char) (hl : ∀ c ∈ l, ¬ c = '+') : subPlus l = l := by
  induction l with
  | nil => rfl
  | cons a rest ih =>
    rw [subPlus, if_neg (hl a (by simp))]
    rw [ih (fun x hx => hl x (List.mem_cons.mpr (Or.inr hx)))]

/-- Characters of the step-4 output: the substituted hyphen, or non-space
characters of the input. -/
theorem mem_collapseWSAux (l : List Char) (c : Char) :
    ∀ b, c ∈ collapseWSAux b l → c = '-' ∨ (c ∈ l ∧ pyIsSpace c = false) := by
  induction l with
  | nil => intro b h; simp [collapseWSAux] at h
  | cons a rest ih =>
    intro b h
    rw [collapseWSAux] at h
    by_cases ha : pyIsSpace a = true
    · rw [if_pos ha] at h
      by_cases hb : b = true
      · rw [if_pos hb] at h
        rcases ih true h with h1 | ⟨h1, h2⟩
        · exact Or.inl h1
        · exact Or.inr ⟨List.mem_cons.mpr (Or.inr h1), h2⟩
      · rw [if_neg hb] at h
        rcases List.mem_cons.mp h with h1 | h1
        · exact Or.inl h1
        · rcases ih true h1 with h2 | ⟨h2, h3⟩
          · exact Or.inl h2
          · exact Or.inr ⟨List.mem_cons.mpr (Or.inr h2), h3⟩
    · rw [if_neg ha] at h
      rcases List.mem_cons.mp h with h1 | h1
      · subst h1
        exact Or.inr ⟨List.mem_cons.mpr (Or.inl rfl), Bool.not_eq_true _ ▸ ha⟩
      · rcases ih false h1 with h2 | ⟨h2, h3⟩
        · exact Or.inl h2
        · exact Or.inr ⟨List.mem_cons.mpr (Or.inr h2), h3⟩

/-- Step 4 fixes any string without whitespace. -/
theorem collapseWSAux_id (l : List Char) (hl : ∀ c ∈ l, pyIsSpace c = false) :
    ∀ b, collapseWSAux b l = l := by
  induction l with
  | nil => intro b; rfl
  | cons a rest ih =>
    intro b
    rw [collapseWSAux, if_neg (by simp [hl a (by simp)])]
    rw [ih (fun x hx => hl x (List.mem_cons.mpr (Or.inr hx))) false]

/-- A `dropWhile` over a list none of whose elements satisfy the predicate
is the identity. -/
theorem dropWhile_id_of (p : Char → Bool) (l : List Char)
    (hl : ∀ c ∈ l, p c = false) : l.dropWhile p = l := by
  cases l with
  | nil => rfl
  | cons a rest => rw [List.dropWhile_cons, hl a (by simp)]; simp

/-- Characters of the stripped string come from the input. -/
theorem mem_pyStrip (l : List Char) (c : Char) (h : c ∈ pyStrip l) : c ∈ l := by
  unfold pyStrip at h
  rw [List.mem_reverse] at h
  have h1 := (List.dropWhile_sublist _).subset h
  rw [List.mem_reverse] at h1
  exact (List.dropWhile_sublist _).subset h1

/-- Stripping fixes any string without whitespace. -/
theorem pyStrip_id (l : List Char) (hl : ∀ c ∈ l, pyIsSpace c = false) :
    pyStrip l = l := by
  unfold pyStrip
  rw [dropWhile_id_of _ _ hl]
  rw [dropWhile_id_of _ _ (fun c hc => hl c (List.mem_reverse.mp hc))]
  exact List.reverse_reverse l

/-- Filtering fixes any string all of whose characters are kept. -/
theorem filterStep1_id (l : List Char) (hl : ∀ c ∈ l, keepChar c = true) :
    filterStep1 l = l := by
  unfold filterStep1
  exact List.filter_eq_self.mpr hl

/-- Characters of the step-5 output come from the input. -/
theorem mem_stripEdition (s : List Char) (c : Char) (h : c ∈ stripEdition s) :
    c ∈ s := by
  unfold stripEdition at h
  split at h
  · rw [List.mem_reverse] at h
    have h1 : c ∈ (s.reverse.drop 8).dropWhile isWordChar := List.mem_of_mem_drop h
    have h2 : c ∈ s.reverse.drop 8 := (List.dropWhile_sublist _).subset h1
    have h3 : c ∈ s.reverse := List.mem_of_mem_drop h2
    exact List.mem_reverse.mp h3
  · exact h

/-- Step 5 fixes any string without the edition-suffix pattern. -/
theorem stripEdition_id (s : List Char) (h : hasEditionSuffix s = false) :
    stripEdition s = s := by
  simp [stripEdition, h]

/-- Every character of a normalised key is in the kept class, is not
whitespace, is not a plus sign, and is fixed by lowercasing. -/
theorem normalizeKey_chars (t : List Char) (c : Char) (hc : c ∈ normalizeKey t) :
    keepChar c = true ∧ pyIsSpace c = false ∧ ¬ c = '+' ∧ pyToLower c = c := by
  unfold normalizeKey collapseWS at hc
  have h1 := mem_stripEdition _ _ hc
  rcases mem_collapseWSAux _ _ false h1 with h2 | ⟨h2, hsp⟩
  · subst h2; exact ⟨by decide, by decide, by decide, by decide⟩
  · rcases mem_subPlus _ _ h2 with ⟨h3, hplus⟩ | h3
    · rcases mem_subSDS _ _ h3 with h4 | h4
      · rcases List.mem_map.mp h4 with ⟨d, hd, rfl⟩
        have hkd : keepChar d = true := (List.mem_filter.mp (mem_pyStrip _ _ hd)).2
        exact ⟨keepChar_pyToLower d hkd, hsp, hplus, pyToLower_fixed d⟩
      · subst h4; simp [pyIsSpace] at hsp
    · have hp : ∀ d ∈ plusChars,
          keepChar d = true ∧ pyIsSpace d = false ∧ ¬ d = '+' ∧ pyToLower d = d := by decide
      exact hp c h3

/-! ## Claim theorems: normaliser -/

/-- C3 counterexample: the key segment derived from
`Notes + Stickers Complete Edition` is not `notesplus-stickers` — the `+`
keeps its surrounding spaces, which step 4 turns into hyphens. -/
theorem create_metacritic_url_notes_not_notesplus :
    ¬ create_metacritic_url "Notes + Stickers Complete Edition".toList
      = "https://www.metacritic.com/game/notesplus-stickers/".toList := by decide

/-- C3 amended: `create_metacritic_url` maps the title
`Notes + Stickers Complete Edition` to the key segment
`notes-plus-stickers` (plus-substitution, whitespace collapse and
edition-suffix strip all apply). -/
theorem create_metacritic_url_notes_stickers :
    create_metacritic_url "Notes + Stickers Complete Edition".toList
      = "https://www.metacritic.com/game/notes-plus-stickers/".toList := by decide

/-- C4 counterexample: an underscore is not a letter, digit, whitespace,
hyphen or plus, yet it survives step 1 and reaches the derived key. -/
theorem normalizeKey_underscore_survives :
    '_' ∈ normalizeKey "a_b".toList ∧
    '_'.isAlpha = false ∧ '_'.isDigit = false ∧ pyIsSpace '_' = false ∧
    ¬ '_' = '-' ∧ ¬ '_' = '+' := by decide

/-- C4 amended: step 1 keeps exactly the word characters (letters, digits
and underscore), whitespace, hyphen and plus; every other character is
removed, and underscores survive. -/
theorem filterStep1_mem_iff (t : List Char) (c : Char) :
    c ∈ filterStep1 t ↔
      c ∈ t ∧ (c.isAlpha = true ∨ c.isDigit = true ∨ c = '_' ∨
        pyIsSpace c = true ∨ c = '+' ∨ c = '-') := by
  unfold filterStep1
  rw [List.mem_filter]
  unfold keepChar isWordChar
  simp only [Bool.or_eq_true, decide_eq_true_eq]
  tauto

/-- C7: re-normalising an already-normalised key that does not end in the
`-word-edition` pattern returns it unchanged. -/
theorem normalizeKey_idempotent (t : List Char)
    (h : hasEditionSuffix (normalizeKey t) = false) :
    normalizeKey (normalizeKey t) = normalizeKey t := by
  have hk := normalizeKey_chars t
  have h1 : filterStep1 (normalizeKey t) = normalizeKey t :=
    filterStep1_id _ (fun c hc => (hk c hc).1)
  have h2 : pyStrip (normalizeKey t) = normalizeKey t :=
    pyStrip_id _ (fun c hc => (hk c hc).2.1)
  have h3 : (normalizeKey t).map pyToLower = normalizeKey t :=
    (List.map_congr_left (fun c hc => (hk c hc).2.2.2)).trans (List.map_id _)
  have h4 : subSDS (normalizeKey t) = normalizeKey t :=
    subSDS_id _ (fun c hc => (hk c hc).2.1)
  have h5 : subPlus (normalizeKey t) = normalizeKey t :=
    subPlus_id _ (fun c hc => (hk c hc).2.2.1)
  have h6 : collapseWS (normalizeKey t) = normalizeKey t :=
    collapseWSAux_id _ (fun c hc => (hk c hc).2.1) false
  calc normalizeKey (normalizeKey t)
      = stripEdition (collapseWS (subPlus (subSDS
          ((pyStrip (filterStep1 (normalizeKey t))).map pyToLower)))) := rfl
    _ = normalizeKey t := by
        rw [h1, h2, h3, h4, h5, h6, stripEdition_id _ h]

/-- C7 witness: the key derived from `Super Mario` has no edition suffix and
re-normalises to itself. -/
theorem normalizeKey_idempotent_witness :
    normalizeKey (normalizeKey "Super Mario".toList) = normalizeKey "Super Mario".toList :=
  normalizeKey_idempotent "Super Mario".toList (by decide)

/-- C10: the key segment embedded in the URL contains no whitespace
character and no plus sign. -/
theorem normalizeKey_no_ws_no_plus (t : List Char) (c : Char)
    (hc : c ∈ normalizeKey t) : pyIsSpace c = false ∧ ¬ c = '+' :=
  ⟨(normalizeKey_chars t c hc).2.1, (normalizeKey_chars t c hc).2.2.1⟩

/-- C10 witness: instantiated on the key derived from `a+ b`, whose first
character is the `a` of the substituted `plus`-free prefix. -/
theorem normalizeKey_no_ws_no_plus_witness :
    pyIsSpace 'a' = false ∧ ¬ 'a' = '+' :=
  normalizeKey_no_ws_no_plus "a+ b".toList 'a' (by decide)

/-! ## Claim theorems: extractor and fetcher -/

/-- C1: on a document whose release-date element is present but reads `TBA`,
`parse_game_info` raises `ValueError` (the `except AttributeError` clause
does not catch it); on release-date text `Jan 05, 2024` it returns
`05-01-2024`. -/
theorem parse_game_info_date_value_error :
    parse_game_info docTBADate = .error .valueError ∧
    parse_game_info docJanDate
      = .ok ⟨none, none, none, none, some "05-01-2024".toList, none, none⟩ := by decide

/-- C2: `scrape_game_info` on an empty catalogue raises
`ZeroDivisionError` from the unguarded success-rate division; on a
one-record catalogue whose fetch fails it completes with success count 0 and
rate 0/1. -/
theorem scrape_game_info_empty_catalogue_crash :
    scrape_game_info (fun _ => .transportError) [] = .error .zeroDivisionError ∧
    scrape_game_info (fun _ => .transportError) [⟨"game a".toList, []⟩]
      = .ok ([naRecord ⟨"game a".toList, []⟩], 0, ((0 : Nat) : ℚ) / ((1 : Nat) : ℚ)) :=
  ⟨by decide, rfl⟩

/-- C8: `get_soup` returns `None` exactly on the failures it recovers from —
transport error, 4xx/5xx status, malformed body — and a parsed document on
every other outcome; being a total function into an option it never raises
to the orchestrator. -/
theorem get_soup_none_iff_failure (o : FetchOutcome) :
    get_soup o = none ↔ fetchFails o = true := by
  cases o with
  | transportError => simp [get_soup, fetchFails]
  | response status body =>
    cases body with
    | malformed => simp [get_soup, fetchFails]
    | html d =>
      simp only [get_soup, fetchFails, Bool.or_false]
      split
      · simp [*]
      · simp [*]

/-- C9: when `parse_game_info` returns a record, a found meta-score
(resp. user-score) region whose text lowercases to `tbd` yields a null
field, and any other text is stored verbatim. -/
theorem parse_game_info_score_tbd (d : Doc) (gi : GameInfo)
    (hok : parse_game_info d = .ok gi) :
    (∀ t, d.metaScoreText = some t →
      gi.meta_score = if t.map pyToLower = "tbd".toList then none else some t) ∧
    (∀ u, d.userScoreText = some u →
      gi.user_score = if u.map pyToLower = "tbd".toList then none else some u) := by
  unfold parse_game_info at hok
  cases hrd : releaseDateField d.releaseDateText with
  | error e => rw [hrd] at hok; cases hok
  | ok rd =>
    rw [hrd] at hok
    cases hok
    constructor
    · intro t ht; simp [tbdToNull, ht]
    · intro u hu; simp [tbdToNull, hu]

/-- C9 witness: on a document with meta-score text `85` and user-score text
`tbd`, the extracted meta score is `85` and the user score is null. -/
theorem parse_game_info_score_tbd_witness :
    (∀ t, docScores.metaScoreText = some t →
      (GameInfo.mk (some "85".toList) none none none none none none).meta_score
        = if t.map pyToLower = "tbd".toList then none else some t) ∧
    (∀ u, docScores.userScoreText = some u →
      (GameInfo.mk (some "85".toList) none none none none none none).user_score
        = if u.map pyToLower = "tbd".toList then none else some u) :=
  parse_game_info_score_tbd docScores
    (GameInfo.mk (some "85".toList) none none none none none none) (by decide)

/-! ## Lemmas about the orchestrator -/

/-- A successful loop iteration keeps the input record as the base of the
enriched record. -/
theorem enrichOne_ok_base (fetch : List Char → FetchOutcome) (g : CatRecord)
    (r : EnrichedRecord) (hit : Bool) (h : enrichOne fetch g = .ok (r, hit)) :
    r.base = g := by
  unfold enrichOne at h
  split at h
  · split at h
    · cases h
    · cases h; rfl
  · cases h; rfl

/-- A successful loop iteration yields either the uniform marker record or a
record of extracted fields. -/
theorem enrichOne_ok_shape (fetch : List Char → FetchOutcome) (g : CatRecord)
    (r : EnrichedRecord) (hit : Bool) (h : enrichOne fetch g = .ok (r, hit)) :
    r = naRecord g ∨ ∃ gi, r = infoRecord g gi := by
  unfold enrichOne at h
  split at h
  · split at h
    · cases h
    · cases h
      exact Or.inr ⟨_, rfl⟩
  · cases h
    exact Or.inl rfl

/-- A successful run maps each input record to an enriched record with the
same base, in order. -/
theorem enrichAll_ok_base (fetch : List Char → FetchOutcome) :
    ∀ (cat : List CatRecord) (recs : List EnrichedRecord) (n : Nat),
      enrichAll fetch cat = .ok (recs, n) → recs.map EnrichedRecord.base = cat := by
  intro cat
  induction cat with
  | nil => intro recs n h; cases h; rfl
  | cons g rest ih =>
    intro recs n h
    unfold enrichAll at h
    cases h1 : enrichOne fetch g with
    | error e => rw [h1] at h; cases h
    | ok p =>
      obtain ⟨r1, hit1⟩ := p
      rw [h1] at h
      cases h2 : enrichAll fetch rest with
      | error e => rw [h2] at h; cases h
      | ok q =>
        obtain ⟨rs, m⟩ := q
        rw [h2] at h
        cases h
        simp only [List.map_cons]
        rw [enrichOne_ok_base fetch g r1 hit1 h1, ih rs m h2]

/-- Every record of a successful run is a marker record or an
extracted-fields record. -/
theorem enrichAll_ok_shape (fetch : List Char → FetchOutcome) :
    ∀ (cat : List CatRecord) (recs : List EnrichedRecord) (n : Nat),
      enrichAll fetch cat = .ok (recs, n) →
      ∀ r ∈ recs, (∃ g, r = naRecord g) ∨ ∃ g gi, r = infoRecord g gi := by
  intro cat
  induction cat with
  | nil => intro recs n h r hr; cases h; cases hr
  | cons g rest ih =>
    intro recs n h r hr
    unfold enrichAll at h
    cases h1 : enrichOne fetch g with
    | error e => rw [h1] at h; cases h
    | ok p =>
      obtain ⟨r1, hit1⟩ := p
      rw [h1] at h
      cases h2 : enrichAll fetch rest with
      | error e => rw [h2] at h; cases h
      | ok q =>
        obtain ⟨rs, m⟩ := q
        rw [h2] at h
        cases h
        rcases List.mem_cons.mp hr with hr | hr
        · subst hr
          rcases enrichOne_ok_shape fetch g r hit1 h1 with hsh | ⟨gi, hsh⟩
          · exact Or.inl ⟨g, hsh⟩
          · exact Or.inr ⟨g, gi, hsh⟩
        · exact ih rs m h2 r hr

/-- A successful `scrape_game_info` embeds a successful `enrichAll`. -/
theorem scrape_ok_enrichAll (fetch : List Char → FetchOutcome)
    (cat : List CatRecord) (recs : List EnrichedRecord) (n : Nat) (rate : ℚ)
    (h : scrape_game_info fetch cat = .ok (recs, n, rate)) :
    enrichAll fetch cat = .ok (recs, n) := by
  unfold scrape_game_info at h
  cases h1 : enrichAll fetch cat with
  | error e => rw [h1] at h; cases h
  | ok p =>
    obtain ⟨recs0, n0⟩ := p
    rw [h1] at h
    have h2 : (if cat.length = 0
          then (Except.error PyError.zeroDivisionError :
            Except PyError (List EnrichedRecord × Nat × ℚ))
          else Except.ok (recs0, n0, (n0 : ℚ) / (cat.length : ℚ)))
        = Except.ok (recs, n, rate) := h
    by_cases hl : cat.length = 0
    · rw [if_pos hl] at h2; cases h2
    · rw [if_neg hl] at h2
      cases h2
      rfl

/-- An extracted column value is never the `'N/A'` marker. -/
theorem ofOpt_isValueOrNull (o : Option (List Char)) :
    (FieldVal.ofOpt o).isValueOrNull := by
  cases o <;> exact trivial

/-- An extracted column value differs from the `'N/A'` marker. -/
theorem ofOpt_ne_na (o : Option (List Char)) : ¬ FieldVal.ofOpt o = .na := by
  cases o <;> simp [FieldVal.ofOpt]

/-! ## Claim theorems: orchestrator -/

/-- C5: in the output of a completed run, every record has either all seven
enrichment columns equal to the uniform `'N/A'` marker or all seven present
as extracted value-or-null — exactly one of the two, never a mixture. -/
theorem scrape_marker_xor_fields (fetch : List Char → FetchOutcome)
    (cat : List CatRecord) (recs : List EnrichedRecord) (n : Nat) (rate : ℚ)
    (h : scrape_game_info fetch cat = .ok (recs, n, rate))
    (r : EnrichedRecord) (hr : r ∈ recs) :
    (allNA r ∧ ¬ allPresent r) ∨ (allPresent r ∧ ¬ allNA r) := by
  have he := scrape_ok_enrichAll fetch cat recs n rate h
  rcases enrichAll_ok_shape fetch cat recs n he r hr with ⟨g, rfl⟩ | ⟨g, gi, rfl⟩
  · left
    constructor
    · exact ⟨rfl, rfl, rfl, rfl, rfl, rfl, rfl⟩
    · intro hp
      exact hp.1
  · right
    constructor
    · exact ⟨ofOpt_isValueOrNull _, ofOpt_isValueOrNull _, ofOpt_isValueOrNull _,
        ofOpt_isValueOrNull _, ofOpt_isValueOrNull _, ofOpt_isValueOrNull _,
        ofOpt_isValueOrNull _⟩
    · intro hna
      exact ofOpt_ne_na _ hna.1

/-- C5 witness: on a one-record catalogue whose fetch fails, the single
output record carries the uniform marker in all seven columns and no
extracted field. -/
theorem scrape_marker_xor_fields_witness :
    (allNA (naRecord ⟨"mario".toList, []⟩) ∧ ¬ allPresent (naRecord ⟨"mario".toList, []⟩)) ∨
    (allPresent (naRecord ⟨"mario".toList, []⟩) ∧ ¬ allNA (naRecord ⟨"mario".toList, []⟩)) :=
  scrape_marker_xor_fields (fun _ => .transportError) [⟨"mario".toList, []⟩]
    [naRecord ⟨"mario".toList, []⟩] 0 (((0 : Nat) : ℚ) / ((1 : Nat) : ℚ)) rfl
    (naRecord ⟨"mario".toList, []⟩) (by simp)

/-- C6: a completed run returns exactly one output record per input record,
in input order, each input record augmented in place (its original fields
are the base of the corresponding output record). -/
theorem scrape_preserves_records (fetch : List Char → FetchOutcome)
    (cat : List CatRecord) (recs : List EnrichedRecord) (n : Nat) (rate : ℚ)
    (h : scrape_game_info fetch cat = .ok (recs, n, rate)) :
    recs.length = cat.length ∧ recs.map EnrichedRecord.base = cat := by
  have hb := enrichAll_ok_base fetch cat recs n (scrape_ok_enrichAll fetch cat recs n rate h)
  refine ⟨?_, hb⟩
  calc recs.length = (recs.map EnrichedRecord.base).length := (List.length_map _ _).symm
    _ = cat.length := by rw [hb]

/-- C6 witness: a one-record catalogue whose fetch succeeds yields exactly
one enriched record whose base is the input record. -/
theorem scrape_preserves_records_witness :
    ([infoRecord ⟨"zelda".toList, []⟩ ⟨none, none, none, none, none, none, none⟩].length
      = [(⟨"zelda".toList, []⟩ : CatRecord)].length) ∧
    [infoRecord ⟨"zelda".toList, []⟩ ⟨none, none, none, none, none, none, none⟩].map
      EnrichedRecord.base = [⟨"zelda".toList, []⟩] :=
  scrape_preserves_records (fun _ => .response 200 (.html docAbsent))
    [⟨"zelda".toList, []⟩]
    [infoRecord ⟨"zelda".toList, []⟩ ⟨none, none, none, none, none, none, none⟩] 1
    (((1 : Nat) : ℚ) / ((1 : Nat) : ℚ)) rfl
